import Mathlib

/-!
Verification of the YTRIO text-to-audiobook pipeline core.

This file gives a shallow embedding, in Lean 4, of the decision logic of the
repository: the document chunker (`src/utils/chunking_strategy.py`), the
processing-strategy classifier (`src/utils/adaptive_optimizer.py`), the
concurrent chunk orchestrator (`src/utils/progressive_processor.py`), the
speed guard (`src/utils/smart_fallback.py`), the tone rewriter wrapper
(`src/utils/granite_helper.py`), and the audio-generation fallback of
`src/main.py`.

Modelling conventions:
* Python strings are Lean `String`s, manipulated through their `List Char`
  representation; all inputs of interest are ASCII so `Char` case and
  whitespace functions coincide with Python's.
* Python floats are modelled as exact rationals (`ℚ`); the float literals of
  the source (0.6, 0.7, 0.8, 1.5, 15.0) are modelled by the corresponding
  rationals.  This is exact except for inputs astronomically close to a
  threshold, which no realistic string can produce.
* External calls (language-model generation, tokenizer decode, TTS
  synthesis, wall-clock probes) are oracle parameters; an `Except`/`Option`
  value `error`/`none` models the call raising an exception.
* `hashlib.md5(k)` used for cache keys is modelled by the key string `k`
  itself (i.e. the hash is assumed injective).
-/

/-! ## Python string primitives -/

/-- The whitespace class of Python's `str.strip` / `\s` (ASCII range). -/
def pyIsSpace (c : Char) : Bool :=
  c = ' ' || c = '\t' || c = '\n' || c = '\r' || c = '\x0b' || c = '\x0c'

/-- `str.strip()` on the left, over characters. -/
def lstripL (l : List Char) : List Char := l.dropWhile pyIsSpace

/-- `str.strip()` over characters. -/
def stripL (l : List Char) : List Char :=
  ((l.dropWhile pyIsSpace).reverse.dropWhile pyIsSpace).reverse

/-- `str.strip()`. -/
def pyStrip (s : String) : String := ⟨stripL s.data⟩

/-- Helper for `str.split()` (split on whitespace runs, dropping empties). -/
def splitWsAux : List Char → List Char → List (List Char)
  | [], cur => if cur.isEmpty then [] else [cur.reverse]
  | c :: rest, cur =>
    if pyIsSpace c then
      if cur.isEmpty then splitWsAux rest [] else cur.reverse :: splitWsAux rest []
    else splitWsAux rest (c :: cur)

/-- Python `str.split()` with no separator: whitespace-delimited words. -/
def pyWords (s : String) : List String := (splitWsAux s.data []).map (⟨·⟩)

/-- Python `len(s.split())`. -/
def pyWordCount (s : String) : ℕ := (pyWords s).length

/-- Helper for `str.split(sep)` with a one-character separator (keeps empties). -/
def splitOnCharAux (sep : Char) : List Char → List Char → List (List Char)
  | [], cur => [cur.reverse]
  | c :: rest, cur =>
    if c = sep then cur.reverse :: splitOnCharAux sep rest []
    else splitOnCharAux sep rest (c :: cur)

/-- Python `str.split(sep)` for a single-character separator. -/
def pySplitChar (sep : Char) (s : String) : List String :=
  (splitOnCharAux sep s.data []).map (⟨·⟩)

/-- Python `str.replace(old, new)` where `old` is a single character. -/
def replaceCharStr (old : Char) (rep : List Char) : List Char → List Char
  | [] => []
  | c :: rest =>
    if c = old then rep ++ replaceCharStr old rep rest
    else c :: replaceCharStr old rep rest

/-- Python one-char-to-one-char `str.replace` on a `String`. -/
def pyReplaceChar (old new : Char) (s : String) : String :=
  ⟨replaceCharStr old [new] s.data⟩

/-- Python `str.replace(old, new, 1)`: replace the first occurrence only. -/
def replaceFirstL (pat rep : List Char) : List Char → List Char
  | [] => []
  | c :: rest =>
    if pat.isPrefixOf (c :: rest) then rep ++ (c :: rest).drop pat.length
    else c :: replaceFirstL pat rep rest

/-- Python `str.replace(old, new)` (all occurrences, nonempty pattern),
with structural fuel: each step consumes at least one character, so fuel
equal to the input length suffices. -/
def replaceAllFuel (pat rep : List Char) : ℕ → List Char → List Char
  | _, [] => []
  | 0, l => l
  | fuel + 1, c :: rest =>
    if pat.isPrefixOf (c :: rest) ∧ pat ≠ [] then
      rep ++ replaceAllFuel pat rep fuel ((c :: rest).drop pat.length)
    else c :: replaceAllFuel pat rep fuel rest

/-- Python `str.replace(old, new)` (all occurrences). -/
def replaceAllL (pat rep l : List Char) : List Char := replaceAllFuel pat rep l.length l

/-- `str.replace` on `String`s (all occurrences). -/
def pyReplace (s pat rep : String) : String := ⟨replaceAllL pat.data rep.data s.data⟩

/-- `str.replace(old, new, 1)` on `String`s. -/
def pyReplaceFirst (s pat rep : String) : String := ⟨replaceFirstL pat.data rep.data s.data⟩

/-- Python `str.lower()` (ASCII). -/
def pyLower (s : String) : String := ⟨s.data.map Char.toLower⟩

/-- Python substring containment `pat in l`. -/
def containsSubL (pat : List Char) : List Char → Bool
  | [] => pat.isEmpty
  | c :: rest => pat.isPrefixOf (c :: rest) || containsSubL pat rest

/-- Python `pat in s`. -/
def pyContains (s pat : String) : Bool := containsSubL pat.data s.data

/-- Python `str.find`: index of the first occurrence of `pat`. -/
def findSubL (pat : List Char) : List Char → Option ℕ
  | [] => if pat.isEmpty then some 0 else none
  | c :: rest =>
    if pat.isPrefixOf (c :: rest) then some 0
    else (findSubL pat rest).map (· + 1)

/-- Helper for `str.rfind`: index of the last occurrence of `pat`, offset `i`. -/
def rfindSubAux (pat : List Char) : List Char → ℕ → Option ℕ
  | [], i => if pat.isEmpty then some i else none
  | c :: rest, i =>
    match rfindSubAux pat rest (i + 1) with
    | some j => some j
    | none => if pat.isPrefixOf (c :: rest) then some i else none

/-- Python `s.rfind(pat)` returning `none` for `-1`. -/
def pyRfind (s pat : String) : Option ℕ := rfindSubAux pat.data s.data 0

/-- Characters of `s` from index `i` on (Python `s[i:]`). -/
def pyDrop (s : String) (i : ℕ) : String := ⟨s.data.drop i⟩

/-- Characters of `s` before index `i` (Python `s[:i]`). -/
def pyTake (s : String) (i : ℕ) : String := ⟨s.data.take i⟩

/-- Python `len(s)` (character count). -/
def pyLen (s : String) : ℕ := s.data.length

/-- Python `str.startswith` used via prefix tests. -/
def pyIsEmptyAfterStrip (s : String) : Bool := (stripL s.data).isEmpty

/-- Non-whitespace character sequence of a string (for losslessness claims). -/
def nonWS (s : String) : List Char := s.data.filter (fun c => !pyIsSpace c)

/-! ## Processing strategy classifier (`src/utils/adaptive_optimizer.py`) -/

/-- `ProcessingStrategy` enum of `adaptive_optimizer.py` (lines 11-18). -/
inductive ProcessingStrategy where
  | micro
  | express
  | standard
  | chunked
  | progressive
  | batch
deriving DecidableEq, Repr

/-- Tier order of the five length-based strategies (micro lightest). -/
def strategyTier : ProcessingStrategy → ℕ
  | .micro => 0
  | .express => 1
  | .standard => 2
  | .chunked => 3
  | .progressive => 4
  | .batch => 5

/-- `TextClassifier._get_base_strategy` (lines 87-92): first threshold in the
insertion-ordered dict `{micro: 50, express: 150, standard: 500,
chunked: 2000, progressive: inf}` with `text_length <= threshold`. -/
def get_base_strategy (text_length : ℕ) : ProcessingStrategy :=
  if text_length ≤ 50 then .micro
  else if text_length ≤ 150 then .express
  else if text_length ≤ 500 then .standard
  else if text_length ≤ 2000 then .chunked
  else .progressive

/-- The trailing complexity block of `_adjust_for_preferences`
(lines 115-122), reached when no earlier branch returned. -/
def complexity_adjust (base : ProcessingStrategy)
    (quality_preference complexity : ℚ) : ProcessingStrategy :=
  if complexity > 7/10 ∧ quality_preference > 6/10 then
    match base with
    | .express => .standard
    | .standard => .chunked
    | _ => base
  else base

/-- `TextClassifier._adjust_for_preferences` (lines 94-124).  The Python
`if/elif` chain returns early only from the matched cases; the cases it
does not map fall through to the trailing complexity block
(`complexity_adjust`). -/
def adjust_for_preferences (base : ProcessingStrategy) (ultra_fast_mode : Bool)
    (quality_preference complexity : ℚ) : ProcessingStrategy :=
  if ultra_fast_mode = true ∧ quality_preference < 7/10 then
    match base with
    | .standard => .express
    | .chunked => .standard
    | .progressive => .chunked
    | b => complexity_adjust b quality_preference complexity
  else if quality_preference > 8/10 then
    match base with
    | .micro => .express
    | .express => .standard
    | b => complexity_adjust b quality_preference complexity
  else complexity_adjust base quality_preference complexity

/-- The classifier's strategy selection as a function of text length,
preferences and the measured complexity score (`classify_text` composes
`_get_base_strategy` with `_adjust_for_preferences`; the complexity score
is the one field of the analysis dict that `_adjust_for_preferences`
reads). -/
def classify_strategy (text_length : ℕ) (ultra_fast_mode : Bool)
    (quality_preference complexity : ℚ) : ProcessingStrategy :=
  adjust_for_preferences (get_base_strategy text_length) ultra_fast_mode
    quality_preference complexity

/-! ## Concurrent chunk orchestration (`src/utils/progressive_processor.py`) -/

/-- State of the result-collection loop of
`ProgressiveProcessor._process_chunks_concurrent` (lines 138-171):
`results` is the by-index buffer (`[None] * len(chunks)`), `cc` is
`completed_count`, `emitted` the sequence of yielded chunk results
(recorded by their chunk index). -/
structure ConcState where
  results : List (Option ℕ)
  cc : ℕ
  emitted : List ℕ
deriving Repr, DecidableEq

/-- The inner `while completed_count > 0 and results[len(results) -
completed_count] is not None` loop (lines 150-153): yields
`results[len(results) - completed_count]` and decrements, returning the
yielded values and the final `completed_count`. -/
def emitReady (results : List (Option ℕ)) : ℕ → List ℕ × ℕ
  | 0 => ([], 0)
  | k + 1 =>
    match results.getD (results.length - (k + 1)) none with
    | some v =>
      let p := emitReady results k
      (v :: p.1, p.2)
    | none => ([], k + 1)

/-- One iteration of the `for future in as_completed(...)` loop (success
case, lines 142-153): the finished chunk `i` stores its result at
`results[chunk['index']]`, `completed_count` is incremented, and the inner
while-loop yields whatever it reaches.  A chunk's result is recorded as its
own index. -/
def processCompletion (st : ConcState) (i : ℕ) : ConcState :=
  let results' := st.results.set i (some i)
  let cc' := st.cc + 1
  let p := emitReady results' cc'
  ⟨results', p.2, st.emitted ++ p.1⟩

/-- The full collection phase of `_process_chunks_concurrent` for `n` chunks
whose workers finish in the order `completionOrder` (all successfully):
the as_completed loop followed by the trailing `for result in results:
if result is not None: yield result` sweep (lines 168-171).  Returns the
sequence of chunk indices in yielded order. -/
def concurrentEmitOrder (n : ℕ) (completionOrder : List ℕ) : List ℕ :=
  let st := completionOrder.foldl processCompletion ⟨List.replicate n none, 0, []⟩
  st.emitted ++ st.results.filterMap id

/-! ## Speed guard (`src/utils/smart_fallback.py`) -/

/-- `SmartFallbackProcessor.slow_threshold` (line 17), in seconds. -/
def slow_threshold : ℚ := 15

/-- Outcome of `detect_ai_speed` (lines 19-53): the returned boolean
("AI is fast"), the new value of the `ai_is_slow` cache, and whether the
probe rewrite was actually run. -/
structure DetectOutcome where
  fast : Bool
  state : Option Bool
  probe_ran : Bool
deriving DecidableEq, Repr

/-- `SmartFallbackProcessor.detect_ai_speed`: `st` is the cached
`ai_is_slow`; the probe oracle yields the measured wall-clock time of the
test rewrite, or `error` if it raised.  The cached verdict short-circuits
the probe entirely. -/
def detect_ai_speed (st : Option Bool) (probe : Except Unit ℚ) : DetectOutcome :=
  match st with
  | some b => ⟨!b, some b, false⟩
  | none =>
    match probe with
    | .ok t => ⟨!decide (t > slow_threshold), some (decide (t > slow_threshold)), true⟩
    | .error _ => ⟨false, some true, true⟩

/-- Word tables of `_process_with_string_optimization` (lines 86, 96). -/
def suspenseful_words : List String :=
  ["mysterious", "ominous", "threatening", "dark", "foreboding"]

/-- Inspiring word table (line 96). -/
def inspiring_words : List String :=
  ["incredible", "amazing", "extraordinary", "remarkable", "powerful"]

/-- The common words scanned for replacement (lines 88, 98). -/
def fallback_common_words : List String := ["the ", "a ", "an ", " and ", " but "]

/-- The sentence list used throughout the repository:
`[s.strip() for s in text.replace('!', '.').replace('?', '.').split('.') if s.strip()]`. -/
def pySentences (text : String) : List String :=
  ((pySplitChar '.' (pyReplaceChar '?' '.' (pyReplaceChar '!' '.' text))).map pyStrip).filter
    (fun s => !s.data.isEmpty)

/-- The per-sentence word-injection of `_process_with_string_optimization`
(lines 83-107): for the suspenseful/inspiring tones, if fewer than three
sentences have been emitted, the first listed common word contained in the
lowercased sentence is replaced (first occurrence, in the original casing)
by a mood word chosen by position. -/
def injectToneWord (words : List String) (pos : ℕ) (sentence : String) : String :=
  match fallback_common_words.find? (fun w => pyContains (pyLower sentence) w) with
  | some w =>
    if pos < 3 then
      pyReplaceFirst sentence w (" " ++ (words.getD (pos % words.length) "") ++ " ")
    else sentence
  | none => sentence

/-- One sentence of `_process_with_string_optimization`, with its terminal
punctuation, where `pos` is `len(processed_sentences)` when the sentence is
handled (equal to its position, as each iteration appends exactly one). -/
def stringOptSentence (tone_lower : String) (pos : ℕ) (sentence : String) : String :=
  if tone_lower = "suspenseful" then
    injectToneWord suspenseful_words pos sentence ++ "..."
  else if tone_lower = "inspiring" then
    injectToneWord inspiring_words pos sentence ++ "!"
  else
    pyReplace (pyReplace sentence "..." ".") "!!" "!" ++ "."

/-- `SmartFallbackProcessor._process_with_string_optimization` (lines
73-124): the deterministic lexical substitution transform used when the AI
is judged too slow. -/
def string_optimization (text tone : String) : String :=
  let tone_lower := pyLower tone
  String.intercalate " "
    ((pySentences text).enum.map (fun p => stringOptSentence tone_lower p.1 p.2))

/-- Outcome of one `process_with_smart_fallback` request. -/
structure FallbackOutcome where
  result : String
  state : Option Bool
  probe_ran : Bool
  model_used : Bool
deriving DecidableEq, Repr

/-- `SmartFallbackProcessor.process_with_smart_fallback` (lines 55-71): run
the speed check, then either the AI path (modelled by the `adaptive`
oracle, `model_used = true`) or the deterministic string transform. -/
def process_with_smart_fallback (st : Option Bool) (probe : Except Unit ℚ)
    (adaptive : String → String → String) (text tone : String) : FallbackOutcome :=
  let d := detect_ai_speed st probe
  if d.fast then ⟨adaptive text tone, d.state, d.probe_ran, true⟩
  else ⟨string_optimization text tone, d.state, d.probe_ran, false⟩

/-- A session: a sequence of rewrite requests `(text, tone, probe-time)`
against one `SmartFallbackProcessor`, threading the cached verdict.  The
probe component records what the speed probe would measure if it ran on
that request. -/
def run_requests (adaptive : String → String → String) :
    Option Bool → List (String × String × Except Unit ℚ) → List FallbackOutcome
  | _, [] => []
  | st, (text, tone, probe) :: rest =>
    let o := process_with_smart_fallback st probe adaptive text tone
    o :: run_requests adaptive o.state rest

/-! ## Document chunker (`src/utils/chunking_strategy.py`) -/

/-- The `[.!?]` class of `sentence_endings = re.compile(r'[.!?]+(?=\s|$)')`. -/
def isSentEnd (c : Char) : Bool := c = '.' || c = '!' || c = '?'

/-- Number of matches of `sentence_endings.findall(text)`: the pattern
`[.!?]+(?=\s|$)` matches exactly the maximal `[.!?]` runs whose following
character is whitespace (or which end the string); shorter backtracked runs
always fail the lookahead because the next character is again `[.!?]`. -/
def sentEndCountFuel : ℕ → List Char → ℕ
  | _, [] => 0
  | 0, _ => 0
  | fuel + 1, c :: rest =>
    if isSentEnd c then
      let after := rest.dropWhile isSentEnd
      (match after with
       | [] => 1
       | a :: _ => if pyIsSpace a then 1 else 0) + sentEndCountFuel fuel after
    else sentEndCountFuel fuel rest

/-- `len(self.sentence_endings.findall(text))`. -/
def sentence_count (s : String) : ℕ := sentEndCountFuel s.data.length s.data

/-- Pieces of `sentence_endings.split(text)`: the matched `[.!?]+` runs
(those followed by whitespace or the end) are removed, everything else is
kept. -/
def sentEndSplitFuel : ℕ → List Char → List Char → List (List Char)
  | _, [], cur => [cur.reverse]
  | 0, l, cur => [cur.reverse ++ l]
  | fuel + 1, c :: rest, cur =>
    if isSentEnd c then
      let run := c :: rest.takeWhile isSentEnd
      let after := rest.dropWhile isSentEnd
      match after with
      | [] => [cur.reverse, []]
      | a :: _ =>
        if pyIsSpace a then cur.reverse :: sentEndSplitFuel fuel after []
        else sentEndSplitFuel fuel after (run.reverse ++ cur)
    else sentEndSplitFuel fuel rest (c :: cur)

/-- `self.sentence_endings.split(text)`. -/
def sentEndSplit (s : String) : List String :=
  (sentEndSplitFuel s.data.length s.data []).map (⟨·⟩)

/-- Index of the last `'\n'` in a character list, if any. -/
def lastNewlineIdx (l : List Char) : Option ℕ := rfindSubAux ['\n'] l 0

/-- Pieces of `paragraph_break.split(text)` with
`paragraph_break = re.compile(r'\n\s*\n')`: a separator starts at a `'\n'`
whose following whitespace run contains another `'\n'`; the greedy `\s*`
places the closing `\n` at the last newline of that run, so the separator
extends through it (trailing non-newline whitespace stays with the next
piece). -/
def paraSplitFuel : ℕ → List Char → List Char → List (List Char)
  | _, [], cur => [cur.reverse]
  | 0, l, cur => [cur.reverse ++ l]
  | fuel + 1, c :: rest, cur =>
    if c = '\n' then
      let ws := rest.takeWhile pyIsSpace
      match lastNewlineIdx ws with
      | some j => cur.reverse :: paraSplitFuel fuel (rest.drop (j + 1)) []
      | none => paraSplitFuel fuel rest ('\n' :: cur)
    else paraSplitFuel fuel rest (c :: cur)

/-- `self.paragraph_break.split(text)`. -/
def paragraph_break_split (s : String) : List String :=
  (paraSplitFuel s.data.length s.data []).map (⟨·⟩)

/-- `len(self.paragraph_break.split(text))`. -/
def paragraph_count (s : String) : ℕ := (paragraph_break_split s).length

/-- `DocumentChunker._sentence_length_variance` (lines 58-70) before the
final `** 0.5`: the population variance of the word counts of the
nonblank pieces of `sentence_endings.split(text)`. -/
def sentence_length_varianceQ (text : String) : ℚ :=
  let sentences := sentEndSplit text
  if sentences.length < 2 then 0
  else
    let lengths := ((sentences.filter (fun s => !(stripL s.data).isEmpty)).map
      (fun s => (pyWordCount s : ℚ)))
    if lengths.isEmpty then 0
    else
      let avg := lengths.sum / lengths.length
      ((lengths.map (fun x => (x - avg) ^ 2)).sum) / lengths.length

/-- The punctuation class `[,;:()\[\]{}"]` of `_calculate_complexity`. -/
def isComplexityPunct (c : Char) : Bool :=
  c = ',' || c = ';' || c = ':' || c = '(' || c = ')' || c = '[' || c = ']' ||
  c = '\x7b' || c = '\x7d' || c = '"'

/-- `DocumentChunker._calculate_complexity` (lines 42-56).  The float
square root `variance ** 0.5` is modelled by the exact real square root. -/
noncomputable def complexity_score (text : String) : ℝ :=
  let words := pyWords text
  let long_words : ℕ := (words.filter (fun w => pyLen w > 7)).length
  let pd : ℚ := ((text.data.filter isComplexityPunct).length : ℚ) / max (pyLen text) 1
  let c : ℝ :=
    ((long_words : ℝ) / max (words.length : ℝ) 1) * (2/5)
    + min ((pd : ℝ) * 10) 1 * (3/10)
    + min (Real.sqrt (sentence_length_varianceQ text) / 50) 1 * (3/10)
  min c 1

/-- The metrics dict returned by `DocumentChunker.analyze_text_structure`
(lines 21-40). -/
structure StructureMetrics where
  text_length : ℕ
  word_count : ℕ
  sentence_count : ℕ
  paragraph_count : ℕ
  avg_sentence_length : ℚ
  avg_paragraph_length : ℚ
  complexity_score : ℝ

/-- `DocumentChunker.analyze_text_structure`. -/
noncomputable def analyze_text_structure (text : String) : StructureMetrics where
  text_length := pyLen text
  word_count := pyWordCount text
  sentence_count := sentence_count text
  paragraph_count := paragraph_count text
  avg_sentence_length := (pyWordCount text : ℚ) / max (sentence_count text) 1
  avg_paragraph_length := (pyLen text : ℚ) / max (paragraph_count text) 1
  complexity_score := complexity_score text

/-- A chunk dict `{'text': ..., 'index': ..., 'type': ...}`. -/
structure Chunk where
  text : String
  index : ℕ
  type : String
deriving DecidableEq, Repr

/-- The sentence list of `_chunk_by_sentences` (line 137):
`[s.strip() + '.' for s in text.replace('!', '.').replace('?', '.').split('.') if s.strip()]`. -/
def chunkSentenceList (text : String) : List String :=
  (((pySplitChar '.' (pyReplaceChar '?' '.' (pyReplaceChar '!' '.' text))).map pyStrip).filter
    (fun s => !s.data.isEmpty)).map (· ++ ".")

/-- Word-boundary conjunction list of `_chunk_long_sentence` (line 238), in
alternation order. -/
def conjunction_list : List String :=
  ["and", "or", "but", "yet", "so", "because", "although", "while", "since",
   "if", "when", "where"]

/-- Python regex word characters (`\w`, ASCII). -/
def isWordChar (c : Char) : Bool := c.isAlphanum || c = '_'

/-- Whether one of the conjunctions matches at the head of `l` with a word
boundary after it (case-insensitively); the boundary before is checked by
the caller. -/
def conjAtHead (l : List Char) : Option (List Char) :=
  (conjunction_list.find? (fun w =>
    w.data.isPrefixOf (l.map Char.toLower) &&
    (match l.drop w.data.length with
     | [] => true
     | c :: _ => !isWordChar c))).map (·.data)

/-- `re.split(r'\b(and|...)\b', sentence, flags=IGNORECASE)`: pieces and the
captured conjunctions, in order.  `prevIsWord` tracks whether the previous
character is a word character (for the leading `\b`).  The matched
conjunction is nonempty, so `max w.length 1 = w.length`; the `max` only
serves the termination argument. -/
def conjSplitAux : List Char → List Char → Bool → List (List Char)
  | [], cur, _ => [cur.reverse]
  | c :: rest, cur, prevIsWord =>
    if !prevIsWord then
      match conjAtHead (c :: rest) with
      | some w =>
        cur.reverse :: w :: conjSplitAux ((c :: rest).drop (max w.length 1)) [] true
      | none => conjSplitAux rest (c :: cur) (isWordChar c)
    else conjSplitAux rest (c :: cur) (isWordChar c)
termination_by l _ _ => l.length
decreasing_by
  · simp only [List.length_drop, List.length_cons]
    omega
  · simp [Nat.lt_succ_self]
  · simp [Nat.lt_succ_self]

/-- `re.split` of the conjunction pattern over a sentence. -/
def conjSplit (s : String) : List String := (conjSplitAux s.data [] false).map (⟨·⟩)

/-- `re.match(conjunctions, p, re.IGNORECASE)` succeeds exactly when `p`
starts directly with a conjunction followed by a word boundary (a leading
non-word character makes the initial `\b` fail). -/
def startsWithConj (p : String) : Bool := (conjAtHead p.data).isSome

/-- Fixed word windows of `_chunk_long_sentence` (lines 242-249):
`range(0, len(words), target_words)` slices.  `target = 0` would raise in
Python (`range` step 0); the chunker only calls this with
`max_chunk_size // 6 ≥ 1`, and the model returns `[]` for step 0. -/
def wordWindows (target : ℕ) : List String → List String
  | [] => []
  | w :: ws =>
    if target = 0 then []
    else String.intercalate " " ((w :: ws).take target) :: wordWindows target ((w :: ws).drop target)
termination_by l => l.length
decreasing_by
  simp only [List.length_drop, List.length_cons]
  omega

/-- `DocumentChunker._chunk_long_sentence` (lines 231-251). -/
def chunk_long_sentence (max_chunk_size : ℕ) (sentence : String) : List String :=
  let parts1 := ((pySplitChar ',' sentence).map pyStrip).filter (fun p => !p.data.isEmpty)
  let parts2 :=
    if parts1.length = 1 then
      ((conjSplit sentence).map pyStrip).filter
        (fun p => !p.data.isEmpty && !startsWithConj p)
    else parts1
  if parts2.length = 1 then wordWindows (max_chunk_size / 6) (pyWords sentence)
  else parts2

/-- `DocumentChunker._split_by_commas` (lines 253-273). -/
def splitByCommasAux (max_chunk_size : ℕ) : List String → String → List String
  | [], cur => if cur.data.isEmpty then [] else [cur]
  | p :: rest, cur =>
    let test := if cur.data.isEmpty then p else pyStrip (cur ++ "," ++ p)
    if pyLen test ≤ max_chunk_size then splitByCommasAux max_chunk_size rest test
    else if cur.data.isEmpty then splitByCommasAux max_chunk_size rest p
    else cur :: splitByCommasAux max_chunk_size rest p

/-- `DocumentChunker._split_by_commas` entry point. -/
def split_by_commas (max_chunk_size : ℕ) (text : String) : List String :=
  splitByCommasAux max_chunk_size
    (((pySplitChar ',' text).map pyStrip).filter (fun p => !p.data.isEmpty)) ""

/-- The greedy sentence-packing loop of `_chunk_by_sentences` (lines 139-181). -/
def chunkBySentencesAux (max_chunk_size : ℕ) : List String → String → ℕ → List Chunk
  | [], cur, idx => if cur.data.isEmpty then [] else [⟨cur, idx, "sentence"⟩]
  | s :: rest, cur, idx =>
    let test := pyStrip (cur ++ " " ++ s)
    if pyLen test ≤ max_chunk_size then chunkBySentencesAux max_chunk_size rest test idx
    else
      let flushed : List Chunk := if cur.data.isEmpty then [] else [⟨cur, idx, "sentence"⟩]
      let idx1 := if cur.data.isEmpty then idx else idx + 1
      if pyLen s > max_chunk_size then
        let subs := chunk_long_sentence max_chunk_size s
        flushed ++ (subs.enum.map (fun q => ⟨q.2, idx1 + q.1, "sub_sentence"⟩))
          ++ chunkBySentencesAux max_chunk_size rest "" (idx1 + subs.length)
      else flushed ++ chunkBySentencesAux max_chunk_size rest s idx1

/-- `DocumentChunker._chunk_by_sentences` (lines 135-181).  The `analysis`
argument of the Python method is unused by its body. -/
def chunk_by_sentences (max_chunk_size : ℕ) (text : String) : List Chunk :=
  chunkBySentencesAux max_chunk_size (chunkSentenceList text) "" 0

/-- The paragraph-packing loop of `_chunk_by_paragraphs` (lines 95-131).
Oversized paragraphs recurse into `_chunk_by_sentences`, re-labelled
`paragraph_sentence`. -/
def chunkByParasAux (max_chunk_size : ℕ) : List String → String → ℕ → List Chunk
  | [], cur, idx => if cur.data.isEmpty then [] else [⟨cur, idx, "paragraph"⟩]
  | p :: rest, cur, idx =>
    let para := pyStrip p
    if para.data.isEmpty then chunkByParasAux max_chunk_size rest cur idx
    else if pyLen cur + pyLen para ≤ max_chunk_size then
      chunkByParasAux max_chunk_size rest
        (if cur.data.isEmpty then para else cur ++ "\n\n" ++ para) idx
    else
      let flushed : List Chunk := if cur.data.isEmpty then [] else [⟨cur, idx, "paragraph"⟩]
      let idx1 := if cur.data.isEmpty then idx else idx + 1
      if pyLen para > max_chunk_size then
        let scs := chunk_by_sentences max_chunk_size para
        flushed ++ (scs.enum.map (fun q => ⟨q.2.text, idx1 + q.1, "paragraph_sentence"⟩))
          ++ chunkByParasAux max_chunk_size rest "" (idx1 + scs.length)
      else flushed ++ chunkByParasAux max_chunk_size rest para idx1

/-- `DocumentChunker._chunk_by_paragraphs` (lines 88-133). -/
def chunk_by_paragraphs (max_chunk_size : ℕ) (text : String) : List Chunk :=
  chunkByParasAux max_chunk_size (paragraph_break_split text) "" 0

/-- The clause-packing loop of `_chunk_by_semantic_boundaries`
(lines 192-227). -/
def chunkSemanticAux (max_chunk_size : ℕ) : List String → String → ℕ → List Chunk
  | [], cur, idx => if cur.data.isEmpty then [] else [⟨cur, idx, "semantic"⟩]
  | cl :: rest, cur, idx =>
    let clause := pyStrip cl
    if clause.data.isEmpty then chunkSemanticAux max_chunk_size rest cur idx
    else if pyLen cur + pyLen clause ≤ max_chunk_size then
      chunkSemanticAux max_chunk_size rest
        (if cur.data.isEmpty then clause else cur ++ ";" ++ clause) idx
    else
      let flushed : List Chunk := if cur.data.isEmpty then [] else [⟨cur, idx, "semantic"⟩]
      let idx1 := if cur.data.isEmpty then idx else idx + 1
      if pyLen clause > max_chunk_size then
        let ccs := split_by_commas max_chunk_size clause
        flushed ++ (ccs.enum.map (fun q => ⟨q.2, idx1 + q.1, "comma_split"⟩))
          ++ chunkSemanticAux max_chunk_size rest "" (idx1 + ccs.length)
      else flushed ++ chunkSemanticAux max_chunk_size rest clause idx1

/-- `DocumentChunker._chunk_by_semantic_boundaries` (lines 183-229);
`re.split(r'[;]', text)` is the plain one-character split. -/
def chunk_by_semantic_boundaries (max_chunk_size : ℕ) (text : String) : List Chunk :=
  chunkSemanticAux max_chunk_size (pySplitChar ';' text) "" 0

/-- `DocumentChunker.smart_chunk` (lines 72-86): dispatch by structure
analysis.  The float comparisons `avg_paragraph_length <
max_chunk_size * 1.5` and `avg_sentence_length < max_chunk_size * 0.8`
(with `avg_x = total / max(count, 1)`) are written cross-multiplied over
ℕ, which is exact since the divisors are positive. -/
def smart_chunk (max_chunk_size : ℕ) (text : String) : List Chunk :=
  if pyLen text < max_chunk_size then [⟨text, 0, "single"⟩]
  else if paragraph_count text > 1 ∧
      2 * pyLen text < 3 * max_chunk_size * max (paragraph_count text) 1 then
    chunk_by_paragraphs max_chunk_size text
  else if 5 * pyWordCount text < 4 * max_chunk_size * max (sentence_count text) 1 then
    chunk_by_sentences max_chunk_size text
  else
    chunk_by_semantic_boundaries max_chunk_size text

/-- The merging loop of `optimize_chunk_sizes` (lines 312-329). -/
def optimizeAux (max_chunk_size min_chunk_size : ℕ) : List Chunk → Chunk → List Chunk
  | [], cur => [cur]
  | ch :: rest, cur =>
    if pyLen cur.text < min_chunk_size ∧
        pyLen cur.text + 1 + pyLen ch.text ≤ max_chunk_size then
      optimizeAux max_chunk_size min_chunk_size rest
        ⟨cur.text ++ " " ++ ch.text, cur.index, "merged"⟩
    else cur :: optimizeAux max_chunk_size min_chunk_size rest ch

/-- `DocumentChunker.optimize_chunk_sizes` (lines 307-335), including the
final reindexing pass. -/
def optimize_chunk_sizes (max_chunk_size min_chunk_size : ℕ) (chunks : List Chunk) : List Chunk :=
  match chunks with
  | [] => []
  | ch :: rest =>
    ((optimizeAux max_chunk_size min_chunk_size rest ch).enum.map
      (fun q => ⟨q.2.text, q.1, q.2.type⟩))

/-- `smart_text_chunker` (lines 338-345): `smart_chunk` followed by
`optimize_chunk_sizes`, with the `DocumentChunker` defaults
`min_chunk_size = 50`. -/
def smart_text_chunker (max_chunk_size : ℕ) (text : String) : List String :=
  (optimize_chunk_sizes max_chunk_size 50 (smart_chunk max_chunk_size text)).map (·.text)

/-- Concatenation of the chunk texts in list order. -/
def concatTexts : List Chunk → String
  | [] => ""
  | c :: rest => c.text ++ concatTexts rest

/-! ## Tone rewriter (`src/utils/granite_helper.py`) -/

/-- `preprocess_text` (lines 237-261): strip, then truncate over-long text
at the last sentence end inside the limit when that end lies past 70% of
the limit, else hard-truncate and append an ellipsis.  (The float
comparison `end > max_length * 0.7` is written cross-multiplied over ℤ;
the float value admits a sentence end at exactly 70% of the limit, a
one-character corner that no claim exercises.) -/
def preprocess_text (text : String) (max_length : ℕ) : String :=
  let t := pyStrip text
  if pyLen t > max_length then
    let truncated := pyTake t max_length
    let lastP : ℤ := (pyRfind truncated ".").elim (-1) (fun n => (n : ℤ))
    let lastE : ℤ := (pyRfind truncated "!").elim (-1) (fun n => (n : ℤ))
    let lastQ : ℤ := (pyRfind truncated "?").elim (-1) (fun n => (n : ℤ))
    let lse := max lastP (max lastE lastQ)
    if 10 * lse > 7 * (max_length : ℤ) then pyTake t (lse.toNat + 1)
    else pyTake t max_length ++ "..."
  else t

/-- The `simple_transforms` dict of the super-fast path (lines 363-370),
selected by `tone.lower()` with the original text as `.get` default. -/
def simple_transforms (text tone : String) : String :=
  let tl := pyLower tone
  if tl = "suspenseful" then pyReplace text "." "..." ++ " Danger lurks in the shadows."
  else if tl = "inspiring" then "Embrace the moment: " ++ pyReplace text "." "!" ++ " Success awaits!"
  else if tl = "neutral" then pyReplace (pyReplace text "." ".") "!" "."
  else text

/-- Prompt construction (lines 374-411), keyed on `tone.lower()` and the
speed flag. -/
def buildPrompt (text tone : String) (ultra_fast_mode : Bool) : String :=
  if ultra_fast_mode then
    if pyLower tone = "suspenseful" then
      "Rewrite this text to be suspenseful and dramatic:\n" ++ text ++ "\n\nSuspenseful version:"
    else if pyLower tone = "inspiring" then
      "Rewrite this text to be inspiring and motivational:\n" ++ text ++ "\n\nInspiring version:"
    else
      "Rewrite this text in a clear, professional tone:\n" ++ text ++ "\n\nClear version:"
  else
    if pyLower tone = "suspenseful" then
      "Task: Rewrite the text below in a suspenseful, dramatic tone while keeping the exact same meaning and key information.\n\nOriginal text: " ++ text ++ "\n\nSuspenseful version:"
    else if pyLower tone = "inspiring" then
      "Task: Rewrite the text below in an inspiring, motivational tone while keeping the exact same meaning and key information.\n\nOriginal text: " ++ text ++ "\n\nInspiring version:"
    else
      "Task: Rewrite the text below in a clear, neutral, professional tone while keeping the exact same meaning and key information.\n\nOriginal text: " ++ text ++ "\n\nNeutral version:"

/-- `re.sub(r'\n\s*\n\s*\n+', '\n\n', s)`: a match starts at a `'\n'` whose
maximal whitespace run contains at least three newlines; greedy matching
extends it through the run's last newline, and it is replaced by two. -/
def collapseTripleNlFuel : ℕ → List Char → List Char
  | _, [] => []
  | 0, l => l
  | fuel + 1, c :: rest =>
    if c = '\n' then
      let ws := (c :: rest).takeWhile pyIsSpace
      if (ws.filter (· = '\n')).length ≥ 3 then
        '\n' :: '\n' :: collapseTripleNlFuel fuel ((c :: rest).drop ((lastNewlineIdx ws).getD 0 + 1))
      else c :: collapseTripleNlFuel fuel rest
    else c :: collapseTripleNlFuel fuel rest

/-- One `re.sub(pat, '', s)` for a lazy pattern `open.*?close`
(IGNORECASE, DOTALL): at each position where the opener matches
case-insensitively, the span through the nearest closer is deleted and
scanning resumes after it; with no closer ahead, the position does not
match. -/
def removeLazyFuel (openTok closeTok : List Char) : ℕ → List Char → List Char
  | _, [] => []
  | 0, l => l
  | fuel + 1, c :: rest =>
    if openTok.isPrefixOf ((c :: rest).map Char.toLower) ∧ openTok ≠ [] then
      let after := (c :: rest).drop openTok.length
      match findSubL closeTok (after.map Char.toLower) with
      | some j => removeLazyFuel openTok closeTok fuel (after.drop (j + closeTok.length))
      | none => c :: removeLazyFuel openTok closeTok fuel rest
    else c :: removeLazyFuel openTok closeTok fuel rest

/-- One lazy-pattern deletion pass on a character list. -/
def removeLazyAux (openTok closeTok : List Char) (l : List Char) : List Char :=
  removeLazyFuel openTok closeTok l.length l

/-- The `unwanted_patterns` loop of `clean_generated_text` (lines 272-282),
applied in source order. -/
def removeUnwantedPatterns (s : String) : String :=
  let s1 : List Char := removeLazyAux "[".data "]".data s.data
  let s2 := removeLazyAux "(note:".data ")".data s1
  let s3 := removeLazyAux "here is".data ":".data s2
  let s4 := removeLazyAux "the rewritten".data ":".data s3
  let s5 := removeLazyAux "this version".data ".".data s4
  ⟨s5⟩

/-- `re.sub(r' +', ' ', s)`. -/
def collapseSpacesFuel : ℕ → List Char → List Char
  | _, [] => []
  | 0, l => l
  | fuel + 1, c :: rest =>
    if c = ' ' then ' ' :: collapseSpacesFuel fuel (rest.dropWhile (· = ' '))
    else c :: collapseSpacesFuel fuel rest

/-- `re.sub(r' +', ' ', s)` on a character list. -/
def collapseSpacesAux (l : List Char) : List Char := collapseSpacesFuel l.length l

/-- Python `str.split(sep)` for a multi-character separator. -/
def splitOnSubAux (sep : List Char) : List Char → List Char → List (List Char)
  | [], cur => [cur.reverse]
  | c :: rest, cur =>
    if h : sep.isPrefixOf (c :: rest) ∧ sep ≠ [] then
      cur.reverse :: splitOnSubAux sep ((c :: rest).drop sep.length) []
    else splitOnSubAux sep rest (c :: cur)
termination_by l _ => l.length
decreasing_by
  · simp only [List.length_drop, List.length_cons]
    have : sep.length ≠ 0 := fun hl => h.2 (List.eq_nil_of_length_eq_zero hl)
    omega
  · simp [Nat.lt_succ_self]

/-- `str.split(sep)` on `String`s. -/
def pySplitSub (sep s : String) : List String := (splitOnSubAux sep.data s.data []).map (⟨·⟩)

/-- Python `str.endswith`. -/
def pyEndsWith (s suffix : String) : Bool := suffix.data.isSuffixOf s.data

/-- The over-length sentence truncation of `clean_generated_text`
(lines 288-297): `original_length` is falsy in Python exactly when zero. -/
def sentenceTruncate (cleaned : String) (original_length : ℕ) : String :=
  if original_length ≠ 0 ∧ pyLen cleaned > original_length * 2 then
    let sentences := pySplitSub ". " cleaned
    if sentences.length > 1 then
      let original_sentences := (sentences.filter (fun s => !(stripL s.data).isEmpty)).length
      let target := max 1 (min original_sentences sentences.length)
      let joined := String.intercalate ". " (sentences.take target)
      if pyEndsWith joined "." then joined else joined ++ "."
    else cleaned
  else cleaned

/-- `clean_generated_text` (lines 263-299). -/
def clean_generated_text (generated_text : String) (original_length : ℕ) : String :=
  let c1 := pyStrip generated_text
  let c2 : String := ⟨collapseTripleNlFuel c1.data.length c1.data⟩
  let c3 := removeUnwantedPatterns c2
  let c4 : String := ⟨collapseSpacesAux c3.data⟩
  let c5 := pyStrip c4
  sentenceTruncate c5 original_length

/-- The "ensure complete sentences" pass (lines 516-525). -/
def ensureCompleteSentence (rewritten tone : String) : String :=
  if rewritten.data.isEmpty then rewritten
  else if pyEndsWith rewritten "." || pyEndsWith rewritten "!" || pyEndsWith rewritten "?" then
    rewritten
  else if pyLen rewritten > 10 then
    if pyLower tone = "suspenseful" then rewritten ++ "..."
    else if pyLower tone = "inspiring" then rewritten ++ "!"
    else rewritten ++ "."
  else rewritten

/-- `extraction_patterns` (lines 479-481). -/
def extraction_patterns : List String :=
  ["version:", "suspenseful:", "inspiring:", "rewritten:", "neutral:", "clear:"]

/-- The pattern-based extraction loop (lines 484-490): last occurrence in
the lowercased output, candidate kept only when longer than 10. -/
def extractByPatterns (full : String) : List String → Option String
  | [] => none
  | p :: rest =>
    if pyContains (pyLower full) p then
      match pyRfind (pyLower full) p with
      | some i =>
        let cand := pyStrip (pyDrop full (i + pyLen p))
        if pyLen cand > 10 then some cand else extractByPatterns full rest
      | none => extractByPatterns full rest
    else extractByPatterns full rest

/-- The full extraction cascade (lines 476-510), producing the raw
`rewritten` ("" when everything fails).  `text1` is the preprocessed input
and `decoded_input` the tokenizer round-trip of the prompt (an oracle).
the `len(full) > len(text) * 0.8` guard is written cross-multiplied over
ℕ, which coincides with the float comparison on integer lengths. -/
def extractRewritten (text1 full decoded_input : String) : String :=
  match extractByPatterns full extraction_patterns with
  | some r => r
  | none =>
    if pyContains full text1 then
      match pyRfind full text1 with
      | some i =>
        let cand := pyStrip (pyDrop full (i + pyLen text1))
        if pyLen cand > 10 then cand else ""
      | none => ""
    else if pyContains full decoded_input then
      let cand := pyStrip (pyDrop full (pyLen decoded_input))
      if pyLen cand > 10 then cand else ""
    else if 5 * pyLen full > 4 * pyLen text1 then pyStrip full
    else ""

/-- How the post-generation phase ends: `cached` results are stored in the
results cache before returning, `uncached` results (the extraction-failure
tone transforms) return directly. -/
inductive GenOutcome where
  | cached (rewritten : String)
  | uncached (result : String)
deriving DecidableEq, Repr

/-- Lines 476-572 after a successful generation: extraction, cleaning,
punctuation completion, the short-output validation with its line fallback,
and the final tone-transform fallback.  The word-count and
identical-output checks of lines 548-560 only log. -/
def afterGeneration (text1 tone : String) (original_length : ℕ)
    (decoded_input full_output : String) : GenOutcome :=
  let r1 := clean_generated_text (extractRewritten text1 full_output decoded_input) original_length
  let r2 := ensureCompleteSentence r1 tone
  if r2.data.isEmpty ∨ pyLen (pyStrip r2) < 10 then
    let lineFallback :=
      ((pySplitChar '\n' full_output).map pyStrip).find?
        (fun l => pyLen l > 20 && pyLower l != pyLower text1)
    let r3 := match lineFallback with | some l => l | none => r2
    if r3.data.isEmpty ∨ pyLen (pyStrip r3) < 10 then
      if pyLower tone = "suspenseful" then
        .uncached (pyReplace text1 "." "..." ++ " The mystery deepens.")
      else if pyLower tone = "inspiring" then
        .uncached (pyReplace text1 "." "!" ++ " Amazing possibilities await!")
      else .uncached text1
    else .cached r3
  else .cached r2

/-- Result of one `rewrite_with_tone` call: the returned string, the cache
after the call, the number of model generation calls made, and whether this
call stored its result in the cache. -/
structure RewriteResult where
  result : String
  cache : List (String × String)
  gen_calls : ℕ
  cached_this_call : Bool
deriving DecidableEq, Repr

/-- The cache key `md5(f"{text}_{tone}_{ultra_fast_mode}")` (line 350),
with the hash modelled as the hashed string itself. -/
def cacheKey (text tone : String) (uf : Bool) : String :=
  text ++ "_" ++ tone ++ "_" ++ (if uf then "True" else "False")

/-- `cache_key in _text_cache` / `_text_cache[cache_key]`. -/
def cacheLookup (cache : List (String × String)) (k : String) : Option String :=
  (cache.find? (fun e => e.1 == k)).map (·.2)

/-- Lines 565-570: store, then drop the oldest entry when over 50.  The
cache is a list in insertion order, oldest first, like the Python dict. -/
def cacheInsert (cache : List (String × String)) (k v : String) : List (String × String) :=
  let c := cache ++ [(k, v)]
  if c.length > 50 then c.drop 1 else c

/-- `rewrite_with_tone` (lines 330-576).  `tokenizer_missing` /
`model_missing` model `tokenizer is None` / `model is None`; `gen` is the
tokenize-generate-decode pipeline on the prompt (`.error` = the generation
raised, caught by the `except` of line 574); `decode_input` is the
tokenizer round-trip oracle used by one extraction branch. -/
def rewrite_with_tone (text tone : String) (tokenizer_missing model_missing : Bool)
    (ultra_fast_mode : Bool) (gen : String → Except String String)
    (decode_input : String → String) (cache : List (String × String)) :
    Except String RewriteResult :=
  if tokenizer_missing || model_missing then
    .error "Tokenizer and model must be provided."
  else
    let key := cacheKey text tone ultra_fast_mode
    match cacheLookup cache key with
    | some v => .ok ⟨v, cache, 0, false⟩
    | none =>
      let original_length := pyLen text
      let text1 := preprocess_text text 1500
      if ultra_fast_mode && pyLen text1 < 20 then
        .ok ⟨simple_transforms text1 tone, cache, 0, false⟩
      else
        let prompt := buildPrompt text1 tone ultra_fast_mode
        match gen prompt with
        | .error _ => .ok ⟨text1, cache, 1, false⟩
        | .ok full_output =>
          match afterGeneration text1 tone original_length (decode_input prompt) full_output with
          | .cached rw => .ok ⟨rw, cacheInsert cache key rw, 1, true⟩
          | .uncached res => .ok ⟨res, cache, 1, false⟩

/-! ## Audio generation fallback (`src/main.py`, lines 1070-1103) -/

/-- A call to one of the two TTS helpers, with its text and voice. -/
inductive TtsReq where
  | ultraFast (text voice : String)
  | standard (text voice : String)
deriving DecidableEq, Repr

/-- The retry text of line 1096:
`rewritten_text[:500] + "..." if len(rewritten_text) > 500 else rewritten_text`. -/
def fallback_text (rewritten : String) : String :=
  if pyLen rewritten > 500 then pyTake rewritten 500 ++ "..." else rewritten

/-- Outcome of the audio-generation block: the audio bytes (`none` models
the terminal `st.stop()` of line 1103) and the TTS helper calls made. -/
structure AudioOutcome where
  audio : Option (List ℕ)
  calls : List TtsReq
deriving DecidableEq, Repr

/-- The audio-generation block of `main.py` (lines 1070-1103): primary TTS
call chosen by length, a `< 1000`-byte validation that raises into the
fallback, one retry through `ultra_fast_tts` with the truncated text and
the default voice `"Sarah (Female)"`, whose failure is terminal.  `tts`
maps each helper call to its returned bytes (`none` = it raised). -/
def primaryReq (rewritten voice : String) : TtsReq :=
  if pyLen rewritten > 1000 then TtsReq.ultraFast rewritten voice
  else TtsReq.standard rewritten voice

/-- The retry helper call of lines 1095-1099. -/
def retryReq (rewritten : String) : TtsReq :=
  TtsReq.ultraFast (fallback_text rewritten) "Sarah (Female)"

/-- The audio-generation block of `main.py` (lines 1070-1103), continued:
see `primaryReq` for the length dispatch of lines 1079-1082. -/
def audio_generation (rewritten voice : String) (tts : TtsReq → Option (List ℕ)) : AudioOutcome :=
  let req1 := primaryReq rewritten voice
  let req2 := retryReq rewritten
  match tts req1 with
  | some b => if b.length < 1000 then ⟨tts req2, [req1, req2]⟩ else ⟨some b, [req1]⟩
  | none => ⟨tts req2, [req1, req2]⟩

/-! ## Concrete inputs used by the verification -/

/-- A two-paragraph input (100 + 2 + 100 characters) whose paragraphs pack
into one chunk of 202 characters under `max_chunk_size = 200`. -/
def twoParaText : String :=
  "Alpha beta gamma delta epsilon zeta eta theta iota kappa lambda mu nu xi omicron pi rho sigma tau x.\n\nUpsilon phi chi psi omega alpha beta gamma delta epsilon zeta eta theta iota kappa lambda mu nu xiz."

/-- A 216-character single-paragraph input containing a `'!'`, routed to
sentence chunking. -/
def exclaimText : String :=
  "The storm broke suddenly over the quiet harbor town! Fishermen scrambled to secure their boats against the rising swell. Rain hammered the cobblestone streets for hours. Nobody slept until the wind finally died down."

/-- A short two-paragraph input where every paragraph fits any usual chunk
budget. -/
def smallParaText : String := "Short first paragraph here.\n\nSecond short paragraph text."

/-- A 45-character sentence used as rewriter input. -/
def foxText : String := "The quick brown fox jumps over the lazy dogs."

/-- A generation oracle echoing the prompt and appending a continuation. -/
def foxGen : String → Except String String :=
  fun p => .ok (p ++ " The swift brown fox gracefully leaps over all of the lazy dogs.")

/-- The continuation extracted from `foxGen`'s output. -/
def foxResult : String := "The swift brown fox gracefully leaps over all of the lazy dogs."

/-- The cache key for `foxText`, tone `Neutral`, ultra-fast mode. -/
def foxKey : String := foxText ++ "_Neutral_True"

/-- `foxText` with a trailing space, to exercise the preprocessing strip. -/
def foxSpacedText : String := "The quick brown fox jumps. "

/-- A 600-character rewritten text for the audio fallback. -/
def aText600 : String := String.mk (List.replicate 600 'a')

/-! ## Verification -/

set_option maxRecDepth 400000

theorem pyLen_append (a b : String) : pyLen (a ++ b) = pyLen a + pyLen b := by
  simp [pyLen, String.data_append]

theorem nonWS_append (a b : String) : nonWS (a ++ b) = nonWS a ++ nonWS b := by
  simp [nonWS, String.data_append]

theorem nonWS_mk (l : List Char) : nonWS ⟨l⟩ = l.filter (fun c => !pyIsSpace c) := rfl

/-- **C1** (code_bug).  The concurrent orchestrator's collection loop is
claimed to yield each chunk's result exactly once in ascending index
order, for every completion order.  At the failing input of three chunks
(completion order 0, 1, 2) the code yields the index sequence
`[1, 1, 2, 0, 1, 2]`: chunk 1 three times, chunk 0 only after chunk 1, and
no completion order of three chunks produces the claimed `[0, 1, 2]`. -/
theorem concurrent_orchestrator_misorders_and_duplicates :
    concurrentEmitOrder 3 [0, 1, 2] = [1, 1, 2, 0, 1, 2] ∧
    (concurrentEmitOrder 3 [0, 1, 2]).count 1 = 3 ∧
    ([[0, 1, 2], [0, 2, 1], [1, 0, 2], [1, 2, 0], [2, 0, 1], [2, 1, 0]].all
      (fun p => concurrentEmitOrder 3 p != [0, 1, 2])) = true := by
  decide

/-- **C9** (counterexample).  The claim says the empty string yields all
counts zero; the analyzer's `re.split(r'\n\s*\n', "")` returns `[""]`, so
`paragraph_count` is 1, not 0. -/
theorem analyzer_empty_paragraph_count_one :
    (analyze_text_structure "").paragraph_count = 1 ∧
    (analyze_text_structure "").paragraph_count ≠ 0 := by
  have h1 : (analyze_text_structure "").paragraph_count = 1 := rfl
  exact ⟨h1, by omega⟩

/-- **C5** (counterexample).  With `ultra_fast_mode = true`,
`quality_preference = 0.65` and complexity `0.8` fixed, a 300-character
text is classified `express` (tier 1) while a 100-character text is
classified `standard` (tier 2): the longer text receives the lighter
strategy, refuting monotonicity. -/
theorem classifier_nonmonotone_at_065 :
    (100 : ℕ) ≤ 300 ∧
    strategyTier (classify_strategy 300 true (13/20) (4/5)) = 1 ∧
    strategyTier (classify_strategy 100 true (13/20) (4/5)) = 2 := by
  norm_num [classify_strategy, get_base_strategy, adjust_for_preferences, complexity_adjust,
    strategyTier]

/-- **C6** (counterexample).  When the generation call raises, the
rewriter returns the *preprocessed* text — here the stripped input — not
the byte-identical text the caller passed in. -/
theorem rewrite_error_returns_stripped_not_original :
    rewrite_with_tone foxSpacedText "Neutral" false false true (fun _ => .error "boom")
      id [] = .ok ⟨"The quick brown fox jumps.", [], 1, false⟩ ∧
    "The quick brown fox jumps." ≠ foxSpacedText := by
  exact ⟨rfl, by decide⟩

/-- **C8** (counterexample).  For a 600-character rewritten text whose
primary TTS call raises, the single retry uses the first 500 characters
plus `"..."` — 503 characters, not at most 500 as claimed. -/
theorem audio_retry_text_exceeds_500 :
    (audio_generation aText600 "James (Male)" (fun _ => none)).calls =
      [TtsReq.standard aText600 "James (Male)",
       TtsReq.ultraFast (fallback_text aText600) "Sarah (Female)"] ∧
    pyLen (fallback_text aText600) = 503 ∧ ¬(pyLen (fallback_text aText600) ≤ 500) := by
  refine ⟨by decide, by decide, by decide⟩

/-- **C8** (amended).  When the primary TTS call raises or returns fewer
than 1000 bytes, exactly one retry is made, through `ultra_fast_tts` with
the default voice `"Sarah (Female)"` and the rewritten text truncated to
its first 500 characters plus `"..."` — at most 503 characters (texts of
at most 500 characters are passed unchanged) — and the retry's outcome is
returned as-is: its bytes without further size validation, or the
terminal failure. -/
theorem audio_fallback_behavior (rewritten voice : String) (tts : TtsReq → Option (List ℕ))
    (hfail : ∀ b, tts (primaryReq rewritten voice) = some b → b.length < 1000) :
    audio_generation rewritten voice tts =
      ⟨tts (retryReq rewritten), [primaryReq rewritten voice, retryReq rewritten]⟩ ∧
    pyLen (fallback_text rewritten) ≤ 503 ∧
    (pyLen rewritten ≤ 500 → fallback_text rewritten = rewritten) := by
  refine ⟨?_, ?_, ?_⟩
  · cases htts : tts (primaryReq rewritten voice) with
    | none => simp [audio_generation, htts]
    | some b => simp [audio_generation, htts, hfail b htts]
  · unfold fallback_text
    split_ifs with h
    · have h1 : pyLen (pyTake rewritten 500) = 500 := by
        simp only [pyLen, pyTake, List.length_take]
        simp only [pyLen] at h
        omega
      have h2 : pyLen "..." = 3 := rfl
      rw [pyLen_append, h1, h2]
    · omega
  · intro h
    unfold fallback_text
    rw [if_neg]
    omega

/-- Witness for `audio_fallback_behavior` at a short text and an
always-raising TTS oracle. -/
theorem audio_fallback_behavior_witness :
    (∀ b : List ℕ, (fun _ : TtsReq => (none : Option (List ℕ)))
        (primaryReq "Hello there." "Emma (Female)") = some b → b.length < 1000) ∧
    (audio_generation "Hello there." "Emma (Female)" (fun _ => none) =
        ⟨none, [primaryReq "Hello there." "Emma (Female)", retryReq "Hello there."]⟩ ∧
      pyLen (fallback_text "Hello there.") ≤ 503 ∧
      (pyLen "Hello there." ≤ 500 → fallback_text "Hello there." = "Hello there.")) :=
  ⟨fun _ h => Option.noConfusion h,
   audio_fallback_behavior "Hello there." "Emma (Female)" (fun _ => none)
     (fun _ h => Option.noConfusion h)⟩

/-- **C10**.  The rewriter raises (a `ValueError`, line 346-347) exactly
when the tokenizer or the model is missing, before the cache lookup; with
both present every outcome — cache hit, super-fast transform, generation
error, extraction fallback, or success — is returned normally, so the
missing-model check is the only raising condition. -/
theorem rewrite_raises_iff_model_missing (text tone : String) (tm mm uf : Bool)
    (gen : String → Except String String) (dec : String → String)
    (cache : List (String × String)) :
    rewrite_with_tone text tone tm mm uf gen dec cache =
      (if tm || mm then .error "Tokenizer and model must be provided."
       else rewrite_with_tone text tone false false uf gen dec cache) ∧
    (rewrite_with_tone text tone false false uf gen dec cache).isOk = true := by
  constructor
  · by_cases h : (tm || mm) = true
    · rw [if_pos h]
      unfold rewrite_with_tone
      rw [if_pos h]
    · rw [if_neg h]
      unfold rewrite_with_tone
      rw [if_neg h, if_neg (by simp)]
  · unfold rewrite_with_tone
    rw [if_neg (by simp)]
    dsimp only
    split <;> try rfl
    split <;> try rfl
    split <;> try rfl
    split <;> rfl

/-- **C6** (amended).  If the generation call raises (and the call is
reached: cache miss and not the sub-20-character super-fast path), the
exception is swallowed and the rewriter returns the *preprocessed* input —
`preprocess_text(text, 1500)`, i.e. stripped of surrounding whitespace and
possibly truncated — which equals the caller's text only when that text
was already stripped and within the limit. -/
theorem rewrite_generation_error_swallowed (text tone : String) (uf : Bool)
    (gen : String → Except String String) (dec : String → String)
    (cache : List (String × String)) (e : String)
    (hcache : cacheLookup cache (cacheKey text tone uf) = none)
    (hfast : ¬(uf = true ∧ pyLen (preprocess_text text 1500) < 20))
    (hgen : gen (buildPrompt (preprocess_text text 1500) tone uf) = .error e) :
    rewrite_with_tone text tone false false uf gen dec cache =
      .ok ⟨preprocess_text text 1500, cache, 1, false⟩ := by
  unfold rewrite_with_tone
  rw [if_neg (by simp)]
  dsimp only
  rw [hcache]
  have hb : (uf && decide (pyLen (preprocess_text text 1500) < 20)) = false := by
    cases uf with
    | false => simp
    | true =>
      simp only [Bool.true_and]
      exact decide_eq_false (fun h20 => hfast ⟨rfl, h20⟩)
  rw [hb]
  simp only [Bool.false_eq_true, if_false]
  rw [hgen]

/-- Witness for `rewrite_generation_error_swallowed` at the spaced fox
sentence with an always-raising generator. -/
theorem rewrite_generation_error_swallowed_witness :
    cacheLookup [] (cacheKey foxSpacedText "Neutral" true) = none ∧
    ¬(true = true ∧ pyLen (preprocess_text foxSpacedText 1500) < 20) ∧
    (fun _ : String => (Except.error "boom" : Except String String))
        (buildPrompt (preprocess_text foxSpacedText 1500) "Neutral" true) = .error "boom" ∧
    rewrite_with_tone foxSpacedText "Neutral" false false true (fun _ => .error "boom")
      id [] = .ok ⟨preprocess_text foxSpacedText 1500, [], 1, false⟩ :=
  ⟨rfl, by decide, rfl,
   rewrite_generation_error_swallowed foxSpacedText "Neutral" true _ id [] "boom"
     rfl (by decide) rfl⟩

theorem cacheLookup_insert_self (cache : List (String × String)) (k v : String)
    (h : cacheLookup cache k = none) :
    cacheLookup (cacheInsert cache k v) k = some v := by
  have hfind : cache.find? (fun e => e.1 == k) = none := by
    unfold cacheLookup at h
    cases hf : cache.find? (fun e => e.1 == k) with
    | none => rfl
    | some p => rw [hf] at h; simp at h
  have happ : (cache ++ [(k, v)]).find? (fun e => e.1 == k) = some (k, v) := by
    rw [List.find?_append, hfind]
    simp
  unfold cacheInsert cacheLookup
  dsimp only
  split
  · next hlen =>
    have hc : 1 ≤ cache.length := by
      simp only [List.length_append, List.length_cons, List.length_nil] at hlen
      omega
    rw [List.drop_append_of_le_length hc]
    have hfind2 : (cache.drop 1).find? (fun e => e.1 == k) = none := by
      rw [List.find?_eq_none] at hfind ⊢
      intro a ha
      exact hfind a (List.mem_of_mem_drop ha)
    rw [List.find?_append, hfind2]
    simp
  · rw [happ]
    rfl

/-- **C7** (amended).  When a first call completes the generation path and
stores its result (`cached_this_call`), a second call with the same
`(text, tone, speed_flag)` is a cache hit: it returns the byte-identical
string with zero generation calls — even under a different model oracle —
and the cache stays bounded by 50 entries (oldest-first eviction).
Results of the sub-20-character transform, the extraction-failure
fallback, and the error path are not cached, so repeats of those re-invoke
the model (see the counterexample). -/
theorem rewrite_cache_hit (text tone : String) (uf : Bool)
    (gen gen2 : String → Except String String) (dec dec2 : String → String)
    (cache : List (String × String)) (r : RewriteResult)
    (h : rewrite_with_tone text tone false false uf gen dec cache = .ok r)
    (hc : r.cached_this_call = true) :
    rewrite_with_tone text tone false false uf gen2 dec2 r.cache =
      .ok ⟨r.result, r.cache, 0, false⟩ ∧
    (cache.length ≤ 50 → r.cache.length ≤ 50) := by
  unfold rewrite_with_tone at h
  rw [if_neg (by simp)] at h
  dsimp only at h
  cases hl : cacheLookup cache (cacheKey text tone uf) with
  | some v =>
    rw [hl] at h
    dsimp only at h
    rw [Except.ok.injEq] at h
    rw [← h] at hc
    simp at hc
  | none =>
    rw [hl] at h
    dsimp only at h
    by_cases hb : (uf && decide (pyLen (preprocess_text text 1500) < 20)) = true
    · rw [if_pos hb] at h
      rw [Except.ok.injEq] at h
      rw [← h] at hc
      simp at hc
    · rw [if_neg hb] at h
      cases hg : gen (buildPrompt (preprocess_text text 1500) tone uf) with
      | error e =>
        rw [hg] at h
        dsimp only at h
        rw [Except.ok.injEq] at h
        rw [← h] at hc
        simp at hc
      | ok full =>
        rw [hg] at h
        dsimp only at h
        cases hag : afterGeneration (preprocess_text text 1500) tone (pyLen text)
            (dec (buildPrompt (preprocess_text text 1500) tone uf)) full with
        | cached rw_ =>
          rw [hag] at h
          dsimp only at h
          rw [Except.ok.injEq] at h
          subst h
          constructor
          · unfold rewrite_with_tone
            rw [if_neg (by simp)]
            dsimp only
            rw [cacheLookup_insert_self cache _ rw_ hl]
          · intro hlen
            unfold cacheInsert
            dsimp only
            split
            · simp only [List.length_drop, List.length_append, List.length_cons,
                List.length_nil]
              omega
            · next hno =>
              simp only [List.length_append, List.length_cons, List.length_nil] at hno ⊢
              omega
        | uncached res =>
          rw [hag] at h
          dsimp only at h
          rw [Except.ok.injEq] at h
          rw [← h] at hc
          simp at hc

/-- Witness for `rewrite_cache_hit`: a concrete successful generation is
cached by the first call and served from the cache by the second. -/
theorem rewrite_cache_hit_witness :
    rewrite_with_tone foxText "Neutral" false false true foxGen id [] =
      .ok ⟨foxResult, [(foxKey, foxResult)], 1, true⟩ ∧
    (RewriteResult.mk foxResult [(foxKey, foxResult)] 1 true).cached_this_call = true ∧
    (rewrite_with_tone foxText "Neutral" false false true foxGen id
        [(foxKey, foxResult)] = .ok ⟨foxResult, [(foxKey, foxResult)], 0, false⟩ ∧
      (([] : List (String × String)).length ≤ 50 →
        ([(foxKey, foxResult)] : List (String × String)).length ≤ 50)) :=
  ⟨rfl, rfl,
   rewrite_cache_hit foxText "Neutral" true foxGen foxGen id id []
     ⟨foxResult, [(foxKey, foxResult)], 1, true⟩ rfl rfl⟩

/-- **C7** (counterexample).  With a failing generator nothing is cached:
the first call makes one generation call, and a second identical call —
run on the cache returned by the first — makes another generation call
(gen_calls = 1, not 0), refuting the claim that the second of two
identical calls is always a cache hit that skips the model. -/
theorem rewrite_second_call_reinvokes_model :
    rewrite_with_tone foxText "Neutral" false false true (fun _ => .error "gen failed")
      id [] = .ok ⟨foxText, [], 1, false⟩ ∧
    rewrite_with_tone foxText "Neutral" false false true (fun _ => .error "gen failed")
      id (match rewrite_with_tone foxText "Neutral" false false true
            (fun _ => .error "gen failed") id [] with
          | .ok r => r.cache
          | .error _ => []) = .ok ⟨foxText, [], 1, false⟩ ∧
    (1 : ℕ) ≠ 0 :=
  ⟨rfl, rfl, by decide⟩

theorem run_requests_slow_state (adaptive : String → String → String) :
    ∀ reqs : List (String × String × Except Unit ℚ),
      run_requests adaptive (some true) reqs =
        reqs.map (fun q => ⟨string_optimization q.1 q.2.1, some true, false, false⟩)
  | [] => rfl
  | (t, tn, p) :: rest => by
    unfold run_requests
    simp only [process_with_smart_fallback, detect_ai_speed, Bool.not_true,
      Bool.false_eq_true, if_false, List.map_cons]
    rw [run_requests_slow_state adaptive rest]

/-- **C4**.  If the first request's probe takes strictly more than 15
seconds, the verdict latches to Slow (`ai_is_slow = some true`) and the
whole session is determined: the probe runs exactly once (`probe_ran` only
on the first request), every request — including the first — is answered
by the deterministic `string_optimization` transform with no model use for
the rewrite, and the cached verdict never changes for any continuation of
the session. -/
theorem speed_guard_slow_is_final (adaptive : String → String → String) (t : ℚ)
    (txt tn : String) (rest : List (String × String × Except Unit ℚ))
    (ht : t > 15) :
    run_requests adaptive none ((txt, tn, .ok t) :: rest) =
      ⟨string_optimization txt tn, some true, true, false⟩ ::
        rest.map (fun q => ⟨string_optimization q.1 q.2.1, some true, false, false⟩) := by
  have hd : detect_ai_speed none (.ok t) = ⟨false, some true, true⟩ := by
    simp [detect_ai_speed, slow_threshold, ht]
  unfold run_requests
  rw [show process_with_smart_fallback none (.ok t) adaptive txt tn =
      ⟨string_optimization txt tn, some true, true, false⟩ from by
    simp [process_with_smart_fallback, hd]]
  dsimp only
  rw [run_requests_slow_state adaptive rest]

/-- Witness for `speed_guard_slow_is_final`: a 16-second probe on a
two-request session. -/
theorem speed_guard_slow_is_final_witness :
    (16 : ℚ) > 15 ∧
    run_requests (fun _ _ => "AI output") none
        [("First request text.", "Suspenseful", .ok 16),
         ("Second request text.", "Suspenseful", .ok 1)] =
      ⟨string_optimization "First request text." "Suspenseful", some true, true, false⟩ ::
        [("Second request text.", "Suspenseful", (.ok 1 : Except Unit ℚ))].map
          (fun q => ⟨string_optimization q.1 q.2.1, some true, false, false⟩) :=
  ⟨by norm_num,
   speed_guard_slow_is_final (fun _ _ => "AI output") 16 "First request text."
     "Suspenseful" [("Second request text.", "Suspenseful", .ok 1)] (by norm_num)⟩

theorem get_base_strategy_tier_mono (l1 l2 : ℕ) (hl : l1 ≤ l2) :
    strategyTier (get_base_strategy l1) ≤ strategyTier (get_base_strategy l2) := by
  unfold get_base_strategy
  split_ifs <;> simp_all [strategyTier] <;> omega

theorem get_base_strategy_ne_batch (l : ℕ) : get_base_strategy l ≠ .batch := by
  unfold get_base_strategy
  split_ifs <;> simp

set_option maxHeartbeats 3200000 in
theorem adjust_tier_mono (s1 s2 : ProcessingStrategy) (uf : Bool) (qp c : ℚ)
    (h1 : s1 ≠ .batch) (h2 : s2 ≠ .batch)
    (h12 : strategyTier s1 ≤ strategyTier s2)
    (hx : ¬(uf = true ∧ 6/10 < qp ∧ qp < 7/10 ∧ 7/10 < c)) :
    strategyTier (adjust_for_preferences s1 uf qp c) ≤
      strategyTier (adjust_for_preferences s2 uf qp c) := by
  cases s1 <;> cases s2 <;>
    first
      | exact absurd rfl h1
      | exact absurd rfl h2
      | (simp only [adjust_for_preferences, complexity_adjust]
         split_ifs <;> simp_all [strategyTier])

/-- **C5** (amended).  The classifier's tier is monotonically
non-decreasing in text length for fixed preferences and complexity score,
except in the single configuration `ultra_fast_mode = true`,
`0.6 < quality_preference < 0.7`, `complexity > 0.7`, where the complexity
upgrade (which fast mode does not shield express-tier texts from) crosses
the fast-mode downgrade and a longer text can receive a lighter tier (see
the counterexample). -/
theorem classify_strategy_monotone (l1 l2 : ℕ) (uf : Bool) (qp c : ℚ)
    (hl : l1 ≤ l2)
    (hx : ¬(uf = true ∧ 6/10 < qp ∧ qp < 7/10 ∧ 7/10 < c)) :
    strategyTier (classify_strategy l1 uf qp c) ≤
      strategyTier (classify_strategy l2 uf qp c) :=
  adjust_tier_mono (get_base_strategy l1) (get_base_strategy l2) uf qp c
    (get_base_strategy_ne_batch l1) (get_base_strategy_ne_batch l2)
    (get_base_strategy_tier_mono l1 l2 hl) hx

/-- Witness for `classify_strategy_monotone` at lengths 100 and 300 with
fast mode off. -/
theorem classify_strategy_monotone_witness :
    (100 : ℕ) ≤ 300 ∧
    ¬(false = true ∧ (6/10 : ℚ) < 1/2 ∧ (1/2 : ℚ) < 7/10 ∧ (7/10 : ℚ) < 0) ∧
    strategyTier (classify_strategy 100 false (1/2) 0) ≤
      strategyTier (classify_strategy 300 false (1/2) 0) :=
  ⟨by norm_num, by simp,
   classify_strategy_monotone 100 300 false (1/2) 0 (by norm_num) (by simp)⟩

/-- **C9** (amended).  The analyzer is a pure function of its input, and on
the empty string returns length 0, word count 0, sentence count 0,
average sentence and paragraph lengths 0 and complexity score 0 — but
paragraph count 1, since `re.split(r'\n\s*\n', "")` returns `[""]`. -/
theorem analyzer_deterministic_empty :
    (∀ s t : String, s = t → analyze_text_structure s = analyze_text_structure t) ∧
    analyze_text_structure "" = ⟨0, 0, 0, 1, 0, 0, 0⟩ := by
  refine ⟨fun s t h => h ▸ rfl, ?_⟩
  have hvar : sentence_length_varianceQ "" = 0 := rfl
  unfold analyze_text_structure
  simp only [StructureMetrics.mk.injEq]
  refine ⟨rfl, rfl, rfl, rfl, ?_, ?_, ?_⟩
  · norm_num [pyWordCount, pyWords, splitWsAux, sentence_count, sentEndCountFuel]
  · norm_num [pyLen, paragraph_count, paragraph_break_split, paraSplitFuel]
  · unfold complexity_score
    rw [hvar]
    norm_num [pyWords, splitWsAux, pyLen, Real.sqrt_zero]

/-- Witness for `analyzer_deterministic_empty`'s determinism conjunct,
applied at the empty string. -/
theorem analyzer_deterministic_empty_witness :
    ("" : String) = "" ∧ analyze_text_structure "" = analyze_text_structure "" :=
  ⟨rfl, analyzer_deterministic_empty.1 "" "" rfl⟩

theorem filter_nonws_dropWhile (l : List Char) :
    (l.dropWhile pyIsSpace).filter (fun c => !pyIsSpace c) =
      l.filter (fun c => !pyIsSpace c) := by
  induction l with
  | nil => rfl
  | cons c rest ih =>
    by_cases h : pyIsSpace c
    · simp [List.dropWhile_cons, h, List.filter_cons, ih]
    · simp [List.dropWhile_cons, h, List.filter_cons]

theorem filter_nonws_strip (l : List Char) :
    (stripL l).filter (fun c => !pyIsSpace c) = l.filter (fun c => !pyIsSpace c) := by
  unfold stripL
  rw [List.filter_reverse, filter_nonws_dropWhile, List.filter_reverse,
    List.reverse_reverse, filter_nonws_dropWhile]

theorem nonWS_strip (s : String) : nonWS (pyStrip s) = nonWS s :=
  filter_nonws_strip s.data

theorem nonWS_eq_nil_of_strip_empty (s : String) (h : (stripL s.data).isEmpty = true) :
    nonWS s = [] := by
  rw [List.isEmpty_iff] at h
  have := filter_nonws_strip s.data
  rw [h] at this
  exact this.symm

theorem rfindSubAux_bound (pat : List Char) (hp : pat ≠ []) :
    ∀ (l : List Char) (i j : ℕ), rfindSubAux pat l i = some j → i ≤ j ∧ j < i + l.length := by
  intro l
  induction l with
  | nil =>
    intro i j h
    unfold rfindSubAux at h
    rw [if_neg (by simpa using hp)] at h
    exact absurd h (by simp)
  | cons c rest ih =>
    intro i j h
    unfold rfindSubAux at h
    cases hr : rfindSubAux pat rest (i + 1) with
    | some k =>
      rw [hr] at h
      dsimp only at h
      rw [Option.some.injEq] at h
      subst h
      have := ih (i + 1) k hr
      simp only [List.length_cons]
      omega
    | none =>
      rw [hr] at h
      dsimp only at h
      by_cases hpre : pat.isPrefixOf (c :: rest) = true
      · rw [if_pos hpre] at h
        rw [Option.some.injEq] at h
        subst h
        simp only [List.length_cons]
        omega
      · rw [if_neg hpre] at h
        exact absurd h (by simp)

theorem paraSplitFuel_filter_join :
    ∀ (fuel : ℕ) (l cur : List Char), l.length ≤ fuel →
      ((paraSplitFuel fuel l cur).map (fun p => p.filter (fun c => !pyIsSpace c))).flatten =
        cur.reverse.filter (fun c => !pyIsSpace c) ++ l.filter (fun c => !pyIsSpace c) := by
  intro fuel
  induction fuel with
  | zero =>
    intro l cur hl
    have : l = [] := List.eq_nil_of_length_eq_zero (by omega)
    subst this
    simp [paraSplitFuel]
  | succ fuel ih =>
    intro l cur hl
    cases l with
    | nil => simp [paraSplitFuel]
    | cons c rest =>
      by_cases hc : c = '\n'
      · subst hc
        simp only [paraSplitFuel, if_pos rfl]
        cases hlast : lastNewlineIdx (rest.takeWhile pyIsSpace) with
        | some j =>
          dsimp only
          rw [if_pos trivial]
          have hws := rfindSubAux_bound ['\n'] (by simp) (rest.takeWhile pyIsSpace) 0 j hlast
          have hjlt : j < (rest.takeWhile pyIsSpace).length := by omega
          have hdroplen : (rest.drop (j + 1)).length ≤ fuel := by
            have h1 : (rest.drop (j + 1)).length ≤ rest.length := by
              simp [List.length_drop]
            simp only [List.length_cons] at hl
            omega
          simp only [List.map_cons, List.flatten_cons]
          rw [ih (rest.drop (j + 1)) [] hdroplen]
          have htake : (rest.take (j + 1)).filter (fun c => !pyIsSpace c) = [] := by
            obtain ⟨tail, htail⟩ := List.takeWhile_prefix (l := rest) (p := pyIsSpace)
            rw [← htail, List.take_append_of_le_length (by omega)]
            rw [List.filter_eq_nil]
            intro a ha
            have := List.mem_takeWhile_imp (List.mem_of_mem_take ha)
            simp [this]
          have hrest : rest.filter (fun c => !pyIsSpace c) =
              (rest.drop (j + 1)).filter (fun c => !pyIsSpace c) := by
            conv => lhs; rw [← List.take_append_drop (j + 1) rest]
            rw [List.filter_append, htake, List.nil_append]
          simp only [List.reverse_nil, List.filter_nil, List.nil_append]
          rw [← hrest]
          simp [List.filter_cons, pyIsSpace]
        | none =>
          dsimp only
          rw [if_pos trivial]
          rw [ih rest ('\n' :: cur) (by simp only [List.length_cons] at hl; omega)]
          simp [List.filter_cons, List.filter_append, pyIsSpace]
      · simp only [paraSplitFuel, if_neg hc]
        rw [ih rest (c :: cur) (by simp only [List.length_cons] at hl; omega)]
        simp only [List.reverse_cons, List.filter_append, List.filter_cons]
        by_cases hsp : pyIsSpace c
        · simp [hsp]
        · simp [hsp]

theorem nonWS_concatTexts_append (l1 l2 : List Chunk) :
    nonWS (concatTexts (l1 ++ l2)) = nonWS (concatTexts l1) ++ nonWS (concatTexts l2) := by
  induction l1 with
  | nil => simp [concatTexts, nonWS]
  | cons c rest ih =>
    simp only [List.cons_append, concatTexts, nonWS_append, List.append_assoc,
      List.append_eq]
    rw [ih]

theorem string_eq_empty_of_isEmpty (s : String) (h : s.data.isEmpty = true) : s = "" := by
  cases s with
  | mk l =>
    rw [List.isEmpty_iff] at h
    simp only at h
    subst h
    rfl

theorem nonWS_empty : nonWS "" = [] := rfl

theorem chunkByParasAux_nonws (maxc : ℕ) :
    ∀ (pieces : List String) (cur : String) (idx : ℕ),
      (∀ p ∈ pieces, pyLen (pyStrip p) ≤ maxc) →
      nonWS (concatTexts (chunkByParasAux maxc pieces cur idx)) =
        nonWS cur ++ (pieces.map (fun p => nonWS p)).flatten := by
  intro pieces
  induction pieces with
  | nil =>
    intro cur idx _
    by_cases h : cur.data.isEmpty = true
    · rw [string_eq_empty_of_isEmpty cur h]
      simp [chunkByParasAux, concatTexts, nonWS_empty]
    · simp only [chunkByParasAux, h, Bool.false_eq_true, if_false]
      simp only [concatTexts, List.map_nil, List.flatten_nil, List.append_nil]
      rw [nonWS_append, nonWS_empty, List.append_nil]
  | cons p rest ih =>
    intro cur idx hall
    have hp : pyLen (pyStrip p) ≤ maxc := hall p (by simp)
    have hrest : ∀ q ∈ rest, pyLen (pyStrip q) ≤ maxc := fun q hq => hall q (by simp [hq])
    simp only [chunkByParasAux]
    by_cases hempty : (pyStrip p).data.isEmpty = true
    · rw [if_pos hempty, ih cur idx hrest]
      have hnp : nonWS p = [] := by
        have h2 := nonWS_strip p
        rw [string_eq_empty_of_isEmpty _ hempty, nonWS_empty] at h2
        exact h2.symm
      simp [hnp]
    · rw [if_neg hempty]
      by_cases hfits : pyLen cur + pyLen (pyStrip p) ≤ maxc
      · rw [if_pos hfits]
        rw [ih _ idx hrest]
        by_cases hce : cur.data.isEmpty = true
        · rw [if_pos hce, string_eq_empty_of_isEmpty cur hce]
          simp [nonWS_empty, nonWS_strip]
        · rw [if_neg hce]
          rw [nonWS_append, nonWS_append]
          have : nonWS "\n\n" = [] := rfl
          simp [this, nonWS_strip, List.append_assoc]
      · rw [if_neg hfits]
        rw [if_neg (by omega : ¬pyLen (pyStrip p) > maxc)]
        rw [nonWS_concatTexts_append]
        rw [ih _ _ hrest]
        by_cases hce : cur.data.isEmpty = true
        · simp only [hce, if_true]
          rw [string_eq_empty_of_isEmpty cur hce]
          simp [concatTexts, nonWS_empty, nonWS_strip]
        · simp only [hce, Bool.false_eq_true, if_false]
          simp only [concatTexts, List.map_cons, List.flatten_cons]
          rw [nonWS_append, nonWS_empty, List.append_nil, nonWS_strip]

theorem chunkByParasAux_bound (maxc : ℕ) :
    ∀ (pieces : List String) (cur : String) (idx : ℕ),
      (∀ p ∈ pieces, pyLen (pyStrip p) ≤ maxc) →
      pyLen cur ≤ maxc + 2 →
      ∀ ch ∈ chunkByParasAux maxc pieces cur idx, pyLen ch.text ≤ maxc + 2 := by
  intro pieces
  induction pieces with
  | nil =>
    intro cur idx _ hcur ch hch
    simp only [chunkByParasAux] at hch
    split at hch
    · simp at hch
    · simp only [List.mem_singleton] at hch
      subst hch
      exact hcur
  | cons p rest ih =>
    intro cur idx hall hcur ch hch
    have hp : pyLen (pyStrip p) ≤ maxc := hall p (by simp)
    have hrest : ∀ q ∈ rest, pyLen (pyStrip q) ≤ maxc := fun q hq => hall q (by simp [hq])
    simp only [chunkByParasAux] at hch
    by_cases hempty : (pyStrip p).data.isEmpty = true
    · rw [if_pos hempty] at hch
      exact ih cur idx hrest hcur ch hch
    · rw [if_neg hempty] at hch
      by_cases hfits : pyLen cur + pyLen (pyStrip p) ≤ maxc
      · rw [if_pos hfits] at hch
        by_cases hce : cur.data.isEmpty = true
        · rw [if_pos hce] at hch
          exact ih _ idx hrest (by omega) ch hch
        · rw [if_neg hce] at hch
          refine ih _ idx hrest ?_ ch hch
          rw [pyLen_append, pyLen_append]
          have h2 : pyLen "\n\n" = 2 := rfl
          omega
      · rw [if_neg hfits] at hch
        rw [if_neg (by omega : ¬pyLen (pyStrip p) > maxc)] at hch
        rw [List.mem_append] at hch
        rcases hch with hch | hch
        · by_cases hce : cur.data.isEmpty = true
          · simp [hce] at hch
          · simp only [hce, Bool.false_eq_true, if_false, List.mem_singleton] at hch
            subst hch
            exact hcur
        · exact ih _ _ hrest (by omega) ch hch

theorem optimizeAux_nonws (maxc minc : ℕ) :
    ∀ (chs : List Chunk) (cur : Chunk),
      nonWS (concatTexts (optimizeAux maxc minc chs cur)) =
        nonWS cur.text ++ nonWS (concatTexts chs) := by
  intro chs
  induction chs with
  | nil =>
    intro cur
    simp only [optimizeAux, concatTexts]
    rw [nonWS_append, nonWS_empty, List.append_nil]
  | cons ch rest ih =>
    intro cur
    simp only [optimizeAux]
    split_ifs with h
    · rw [ih]
      simp only [concatTexts]
      rw [nonWS_append, nonWS_append, nonWS_append]
      have hsp : nonWS " " = [] := rfl
      simp [hsp, List.append_assoc]
    · simp only [concatTexts]
      rw [nonWS_append, ih, nonWS_append]

theorem optimizeAux_bound (maxc minc B : ℕ) (hB : maxc ≤ B) :
    ∀ (chs : List Chunk) (cur : Chunk),
      (∀ ch ∈ chs, pyLen ch.text ≤ B) → pyLen cur.text ≤ B →
      ∀ out ∈ optimizeAux maxc minc chs cur, pyLen out.text ≤ B := by
  intro chs
  induction chs with
  | nil =>
    intro cur _ hcur out hout
    simp only [optimizeAux, List.mem_singleton] at hout
    subst hout
    exact hcur
  | cons ch rest ih =>
    intro cur hall hcur out hout
    have hch : pyLen ch.text ≤ B := hall ch (by simp)
    have hrest : ∀ q ∈ rest, pyLen q.text ≤ B := fun q hq => hall q (by simp [hq])
    simp only [optimizeAux] at hout
    split_ifs at hout with h
    · refine ih _ hrest ?_ out hout
      simp only
      rw [pyLen_append, pyLen_append]
      have h1 : pyLen " " = 1 := rfl
      omega
    · rcases List.mem_cons.mp hout with hout | hout
      · subst hout
        exact hcur
      · exact ih _ hrest hch out hout

theorem concatTexts_enumFrom_reindex :
    ∀ (l : List Chunk) (n : ℕ),
      concatTexts ((List.enumFrom n l).map (fun q => Chunk.mk q.2.text q.1 q.2.type)) =
        concatTexts l := by
  intro l
  induction l with
  | nil => intro n; rfl
  | cons c rest ih =>
    intro n
    simp only [List.enumFrom, List.map_cons, concatTexts]
    rw [ih]

theorem bound_enumFrom_reindex (B : ℕ) :
    ∀ (l : List Chunk) (n : ℕ),
      (∀ c ∈ l, pyLen c.text ≤ B) →
      ∀ ch ∈ (List.enumFrom n l).map (fun q => Chunk.mk q.2.text q.1 q.2.type),
        pyLen ch.text ≤ B := by
  intro l
  induction l with
  | nil => intro n _ ch hch; simp at hch
  | cons c rest ih =>
    intro n hall ch hch
    simp only [List.enumFrom, List.map_cons, List.mem_cons] at hch
    rcases hch with hch | hch
    · subst hch
      exact hall c (by simp)
    · exact ih (n + 1) (fun q hq => hall q (by simp [hq])) ch hch

theorem optimize_nonws (maxc minc : ℕ) (chs : List Chunk) :
    nonWS (concatTexts (optimize_chunk_sizes maxc minc chs)) = nonWS (concatTexts chs) := by
  cases chs with
  | nil => rfl
  | cons ch rest =>
    simp only [optimize_chunk_sizes, List.enum]
    rw [concatTexts_enumFrom_reindex, optimizeAux_nonws]
    simp only [concatTexts]
    rw [nonWS_append]

theorem optimize_bound (maxc minc B : ℕ) (hB : maxc ≤ B) (chs : List Chunk)
    (hall : ∀ ch ∈ chs, pyLen ch.text ≤ B) :
    ∀ ch ∈ optimize_chunk_sizes maxc minc chs, pyLen ch.text ≤ B := by
  cases chs with
  | nil => intro ch hch; simp [optimize_chunk_sizes] at hch
  | cons c rest =>
    intro ch hch
    simp only [optimize_chunk_sizes, List.enum] at hch
    refine bound_enumFrom_reindex B _ 0 ?_ ch hch
    exact optimizeAux_bound maxc minc B hB rest c
      (fun q hq => hall q (by simp [hq])) (hall c (by simp))

/-- **C2** (amended).  On the single-span path and on the paragraph path
with no oversized paragraph (every stripped paragraph within
`max_chunk_size`), chunking followed by the small-chunk merge pass
preserves the input's non-whitespace character sequence exactly.  The
sentence-level splitter is not lossless up to whitespace: it normalizes
`'!'`/`'?'` to `'.'` and can add or drop punctuation and conjunction words
(see the counterexample), so the hypothesis restricts to the paths where
the claim holds. -/
theorem chunker_paragraph_lossless (maxc minc : ℕ) (text : String)
    (hparas : ∀ p ∈ paragraph_break_split text, pyLen (pyStrip p) ≤ maxc)
    (hdisp : pyLen text < maxc ∨
      (paragraph_count text > 1 ∧
        2 * pyLen text < 3 * maxc * max (paragraph_count text) 1)) :
    nonWS (concatTexts (optimize_chunk_sizes maxc minc (smart_chunk maxc text))) =
      nonWS text := by
  rw [optimize_nonws]
  by_cases hs : pyLen text < maxc
  · rw [smart_chunk, if_pos hs]
    simp only [concatTexts]
    rw [nonWS_append, nonWS_empty, List.append_nil]
  · have hcond := hdisp.resolve_left hs
    rw [smart_chunk, if_neg hs, if_pos hcond]
    rw [chunk_by_paragraphs]
    rw [chunkByParasAux_nonws maxc _ "" 0 hparas]
    rw [nonWS_empty, List.nil_append]
    unfold paragraph_break_split
    rw [List.map_map]
    have hco : (fun p => nonWS p) ∘ (fun l : List Char => (⟨l⟩ : String)) =
        fun p => p.filter (fun c => !pyIsSpace c) := rfl
    rw [hco]
    rw [paraSplitFuel_filter_join text.data.length text.data [] (le_refl _)]
    simp [nonWS]

/-- **C3** (amended).  On the single-span path and on the paragraph path
with no oversized paragraph, every span after the merge pass has length at
most `max_chunk_size + 2`: the packer tests `len(current + para)` without
counting the two-character `"\n\n"` joiner it then inserts, so spans can
exceed the budget by up to two characters even when they are not atomic
word-runs (see the counterexample); the claimed strict bound
`max_chunk_size` does not hold. -/
theorem chunker_paragraph_bound (maxc minc : ℕ) (text : String)
    (hparas : ∀ p ∈ paragraph_break_split text, pyLen (pyStrip p) ≤ maxc)
    (hdisp : pyLen text < maxc ∨
      (paragraph_count text > 1 ∧
        2 * pyLen text < 3 * maxc * max (paragraph_count text) 1)) :
    ∀ ch ∈ optimize_chunk_sizes maxc minc (smart_chunk maxc text),
      pyLen ch.text ≤ maxc + 2 := by
  refine optimize_bound maxc minc (maxc + 2) (by omega) _ ?_
  by_cases hs : pyLen text < maxc
  · rw [smart_chunk, if_pos hs]
    intro ch hch
    simp only [List.mem_singleton] at hch
    subst hch
    simp only
    omega
  · rw [smart_chunk, if_neg hs, if_pos (hdisp.resolve_left hs)]
    rw [chunk_by_paragraphs]
    refine chunkByParasAux_bound maxc _ "" 0 hparas ?_
    have : pyLen "" = 0 := rfl
    omega

theorem chunker_paragraph_lossless_witness :
    (∀ p ∈ paragraph_break_split twoParaText, pyLen (pyStrip p) ≤ 200) ∧
    (paragraph_count twoParaText > 1 ∧
      2 * pyLen twoParaText < 3 * 200 * max (paragraph_count twoParaText) 1) ∧
    nonWS (concatTexts (optimize_chunk_sizes 200 50 (smart_chunk 200 twoParaText))) =
      nonWS twoParaText :=
  ⟨by decide, by decide,
   chunker_paragraph_lossless 200 50 twoParaText (by decide) (Or.inr (by decide))⟩

theorem chunker_paragraph_bound_witness :
    (∀ p ∈ paragraph_break_split twoParaText, pyLen (pyStrip p) ≤ 200) ∧
    (paragraph_count twoParaText > 1 ∧
      2 * pyLen twoParaText < 3 * 200 * max (paragraph_count twoParaText) 1) ∧
    (∀ ch ∈ optimize_chunk_sizes 200 50 (smart_chunk 200 twoParaText),
      pyLen ch.text ≤ 202) :=
  ⟨by decide, by decide,
   chunker_paragraph_bound 200 50 twoParaText (by decide) (Or.inr (by decide))⟩

/-- **C3** (counterexample).  Two 100-character paragraphs pack into a
single 202-character span (`max_chunk_size = 200`) of 39 words — longer
than `max_chunk_size` yet not an atomic single word-run. -/
theorem chunker_span_exceeds_max :
    ∃ ch ∈ optimize_chunk_sizes 200 50 (smart_chunk 200 twoParaText),
      200 < pyLen ch.text ∧ 2 ≤ (pyWords ch.text).length := by decide

/-- **C2** (counterexample).  A 216-character single-paragraph text with a
`'!'` goes through the sentence splitter, which rewrites the `'!'` to
`'.'`: the concatenated spans do not preserve the non-whitespace character
sequence. -/
theorem chunker_sentence_path_lossy :
    nonWS (concatTexts (optimize_chunk_sizes 200 50 (smart_chunk 200 exclaimText))) ≠
      nonWS exclaimText := by decide
